import Mathlib

/-!
Verification of the LabPipeline chunking and vector-document assembly subsystem.

The embedding models `src/src/vectorstore/chunker.py` (`chunk_text`) and
`src/src/vectorstore/vector_doc_builder.py`
(`create_vector_documents_from_metadata`).

The chunker's Python loop

    start = 0
    while start < total_tokens:
        end = min(start + max_tokens, total_tokens)
        chunk_tokens = tokens[start:end]
        chunks.append(tokenizer.decode(chunk_tokens))
        start += max_tokens - overlap_tokens

is modelled with explicit fuel, because for `max_tokens - overlap_tokens <= 0`
and non-empty input the loop does not terminate.  `chunkLoop tokens M O fuel
start` returns `some chunks` when the loop finishes within `fuel` iterations
and `none` otherwise; non-termination of the Python loop is exactly
`forall fuel, chunkLoop ... = none`.  Parameters are `Int`, as in Python.
The external tokenizer (tiktoken) is an opaque collaborator: it is a pair of
functions `encode : String -> List Nat`, `decode : List Nat -> String`
resolved from a registry keyed by model name, and the token-level loop is
analysed independently of it.
-/

namespace LabPipeline

/-- A tokenization profile: the encoder/decoder pair tiktoken resolves for a
model name.  External collaborator (tiktoken), kept abstract. -/
structure Encoding where
  encode : String → List Nat
  decode : List Nat → String

/-- Errors of the chunking layer.  `unsupportedModel` abstracts the exception
tiktoken's `encoding_for_model` raises for an unknown model name. -/
inductive ChunkError where
  | unsupportedModel (model_name : String)
  deriving DecidableEq, Repr

/-- The tiktoken model-name registry lookup, `tiktoken.encoding_for_model`:
external collaborator, modelled as an association-list lookup that fails on
unknown names. -/
def encoding_for_model (registry : List (String × Encoding)) (name : String) :
    Except ChunkError Encoding :=
  match registry.find? (fun p => p.1 == name) with
  | some p => Except.ok p.2
  | none => Except.error (ChunkError.unsupportedModel name)

/-- Clamp one bound of a Python slice `l[i:j]` for a list of length `n`:
a negative index counts from the end (clamped below at 0), a non-negative
index is clamped above at `n`. -/
def pyBound (n : Nat) (i : Int) : Nat :=
  if i < 0 then ((n : Int) + i).toNat else min i.toNat n

/-- Python slice `l[i:j]` (step 1). -/
def pySlice (l : List α) (i j : Int) : List α :=
  (l.take (pyBound l.length j)).drop (pyBound l.length i)

/-- The sliding-window loop of `chunk_text` (chunker.py lines 50-59), at the
token level, with explicit fuel.  Returns `none` when `fuel` iterations do
not reach `start >= total_tokens`. -/
def chunkLoop (tokens : List Nat) (max_tokens overlap_tokens : Int) :
    Nat → Int → Option (List (List Nat))
  | 0, _ => none
  | fuel + 1, start =>
    if start < (tokens.length : Int) then
      let endIdx := min (start + max_tokens) (tokens.length : Int)
      let chunk := pySlice tokens start endIdx
      match chunkLoop tokens max_tokens overlap_tokens fuel
          (start + (max_tokens - overlap_tokens)) with
      | some rest => some (chunk :: rest)
      | none => none
    else
      some []

/-- `chunk_text` for an already-resolved encoding: encode the text, run the
sliding-window loop from token offset 0, decode each window. -/
def chunk_text (enc : Encoding) (text : String)
    (max_tokens overlap_tokens : Int) (fuel : Nat) : Option (List String) :=
  (chunkLoop (enc.encode text) max_tokens overlap_tokens fuel 0).map
    (List.map enc.decode)

/-- Full `chunk_text` including the `tiktoken.encoding_for_model` resolution
(chunker.py lines 40-43): an unknown model name fails before the text is
touched. -/
def chunk_text_full (registry : List (String × Encoding))
    (text model_name : String) (max_tokens overlap_tokens : Int)
    (fuel : Nat) : Except ChunkError (Option (List String)) :=
  match encoding_for_model registry model_name with
  | Except.error e => Except.error e
  | Except.ok enc =>
      Except.ok (chunk_text enc text max_tokens overlap_tokens fuel)

/-- Reference form of the loop for valid configurations (`overlap < max`,
both naturals): same windows, natural-number offsets, structural fuel. -/
def chunkFromNat (tokens : List Nat) (M O : Nat) : Nat → Nat → List (List Nat)
  | 0, _ => []
  | fuel + 1, start =>
    if start < tokens.length then
      ((tokens.drop start).take M) ::
        chunkFromNat tokens M O fuel (start + (M - O))
    else
      []

/-- The Python loop never terminates on these arguments. -/
def chunkDiverges (tokens : List Nat) (max_tokens overlap_tokens : Int) : Prop :=
  ∀ fuel : Nat, chunkLoop tokens max_tokens overlap_tokens fuel 0 = none

/-- Concatenation of the windows with each non-first window's leading
`O` tokens removed: the reconstruction the spec's round-trip property
talks about. -/
def overlapDropJoin (O : Nat) : List (List Nat) → List Nat
  | [] => []
  | w :: rest => w ++ (rest.map (List.drop O)).flatten

lemma pyBound_natCast (n i : Nat) : pyBound n (i : Int) = min i n := by
  unfold pyBound
  rw [if_neg (by omega)]
  simp

/-- For natural slice bounds of the shape the loop produces, the Python slice
is `drop`-then-`take`. -/
lemma pySlice_eq_drop_take (l : List α) (start M : Nat) :
    pySlice l (start : Int) (min ((start : Int) + (M : Int)) (l.length : Int)) =
      (l.drop start).take M := by
  have hcast : min ((start : Int) + (M : Int)) (l.length : Int) =
      ((min (start + M) l.length : Nat) : Int) := by
    push_cast
    rfl
  unfold pySlice
  rw [hcast, pyBound_natCast, pyBound_natCast]
  have hmin : min (min (start + M) l.length) l.length = min (start + M) l.length := by
    omega
  rw [hmin]
  rcases Nat.lt_or_ge start l.length with h | h
  · rw [Nat.min_eq_left h.le, List.drop_take, List.take_eq_take]
    simp only [List.length_drop]
    omega
  · rw [Nat.min_eq_right h,
      List.drop_eq_nil_of_le (le_trans (List.length_take_le' _ _) le_rfl),
      List.drop_eq_nil_of_le h, List.take_nil]

/-- With fuel at least the number of remaining iterations, the faithful
`Int`-indexed loop agrees with the reference natural-number form. -/
lemma chunkLoop_eq_chunkFromNat (tokens : List Nat) (M O : Nat) (hO : O < M) :
    ∀ fuel start : Nat, tokens.length ≤ start + (M - O) * fuel →
      chunkLoop tokens (M : Int) (O : Int) (fuel + 1) (start : Int) =
        some (chunkFromNat tokens M O (fuel + 1) start) := by
  intro fuel
  induction fuel with
  | zero =>
    intro start h
    simp only [Nat.mul_zero, Nat.add_zero] at h
    simp only [chunkLoop, chunkFromNat]
    rw [if_neg (by exact_mod_cast Nat.not_lt.mpr h), if_neg (Nat.not_lt.mpr h)]
  | succ fuel ih =>
    intro start h
    by_cases hs : start < tokens.length
    · have harith : (start : Int) + ((M : Int) - (O : Int)) =
          ((start + (M - O) : Nat) : Int) := by
        push_cast [Nat.cast_sub hO.le]
        ring
      have hrec := ih (start + (M - O))
        (by
          have : (M - O) * (fuel + 1) = (M - O) + (M - O) * fuel := by ring
          omega)
      simp only [chunkLoop] at hrec ⊢
      rw [if_pos (show (start : Int) < (tokens.length : Int) by exact_mod_cast hs),
        harith, hrec]
      simp only [chunkFromNat]
      rw [if_pos hs, pySlice_eq_drop_take]
    · simp only [chunkLoop, chunkFromNat]
      rw [if_neg (by exact_mod_cast hs), if_neg hs]

/-- Exact chunk count of the reference loop: starting at offset `start` with
stride `s = M - O`, the loop emits `ceil((length - start) / s)` windows. -/
lemma chunkFromNat_length (tokens : List Nat) (M O : Nat) (hO : O < M) :
    ∀ fuel start : Nat, tokens.length ≤ start + (M - O) * fuel →
      (chunkFromNat tokens M O fuel start).length =
        (tokens.length - start + (M - O) - 1) / (M - O) := by
  intro fuel
  have hs0 : 0 < M - O := by omega
  induction fuel with
  | zero =>
    intro start h
    simp only [Nat.mul_zero, Nat.add_zero] at h
    simp only [chunkFromNat, List.length_nil]
    rw [Nat.div_eq_of_lt (by omega)]
  | succ fuel ih =>
    intro start h
    by_cases hlt : start < tokens.length
    · have hrec := ih (start + (M - O))
        (by
          have : (M - O) * (fuel + 1) = (M - O) + (M - O) * fuel := by ring
          omega)
      simp only [chunkFromNat]
      rw [if_pos hlt]
      simp only [List.length_cons]
      rw [hrec]
      rcases Nat.lt_or_ge (M - O) (tokens.length - start) with hx | hx
      · have h1 : tokens.length - (start + (M - O)) + (M - O) - 1 =
            tokens.length - start - 1 := by omega
        have h2 : tokens.length - start + (M - O) - 1 =
            (tokens.length - start - 1) + (M - O) := by omega
        rw [h1, h2, Nat.add_div_right _ hs0]
      · have h1 : tokens.length - (start + (M - O)) = 0 := by omega
        rw [h1]
        rw [Nat.div_eq_of_lt (by omega)]
        rw [show (tokens.length - start + (M - O) - 1) / (M - O) = 1 from
          Nat.div_eq_of_lt_le (by omega) (by omega)]
    · simp only [chunkFromNat]
      rw [if_neg hlt]
      simp only [List.length_nil]
      rw [Nat.div_eq_of_lt (by omega)]

/-- Dropping the leading `O` tokens from every window and concatenating
yields the suffix of the token stream from `start + O` on. -/
lemma chunkFromNat_dropJoin (tokens : List Nat) (M O : Nat) :
    ∀ fuel start : Nat, tokens.length ≤ start + (M - O) * fuel →
      ((chunkFromNat tokens M O fuel start).map (List.drop O)).flatten =
        tokens.drop (start + O) := by
  intro fuel
  induction fuel with
  | zero =>
    intro start h
    simp only [Nat.mul_zero, Nat.add_zero] at h
    simp only [chunkFromNat, List.map_nil, List.flatten_nil]
    rw [List.drop_eq_nil_of_le (by omega)]
  | succ fuel ih =>
    intro start h
    by_cases hlt : start < tokens.length
    · have hrec := ih (start + (M - O))
        (by
          have : (M - O) * (fuel + 1) = (M - O) + (M - O) * fuel := by ring
          omega)
      simp only [chunkFromNat]
      rw [if_pos hlt]
      simp only [List.map_cons, List.flatten_cons]
      rw [hrec, List.drop_take, List.drop_drop]
      have h2 : start + (M - O) + O = start + O + (M - O) := by omega
      have h3 : tokens.drop (start + O + (M - O)) =
          (tokens.drop (start + O)).drop (M - O) := (List.drop_drop _ _ _).symm
      rw [h2, h3]
      exact List.take_append_drop _ _
    · simp only [chunkFromNat]
      rw [if_neg hlt]
      simp only [List.map_nil, List.flatten_nil]
      rw [List.drop_eq_nil_of_le (by omega)]

/-- Round trip of the reference loop from offset 0: the first window plus the
overlap-stripped remaining windows reconstruct the token stream. -/
lemma chunkFromNat_overlapDropJoin (tokens : List Nat) (M O : Nat) (hO : O < M)
    (fuel : Nat) (h : tokens.length ≤ (M - O) * fuel) :
    overlapDropJoin O (chunkFromNat tokens M O (fuel + 1) 0) = tokens := by
  simp only [chunkFromNat]
  by_cases h0 : 0 < tokens.length
  · rw [if_pos h0]
    simp only [overlapDropJoin]
    rw [chunkFromNat_dropJoin tokens M O fuel (0 + (M - O)) (by omega)]
    simp only [List.drop_zero, Nat.zero_add]
    have h3 : M - O + O = M := by omega
    rw [h3]
    exact List.take_append_drop _ _
  · rw [if_neg h0]
    simp only [overlapDropJoin]
    have : tokens = [] := List.length_eq_zero.mp (by omega)
    rw [this]

/-- The loop's value is fuel-monotone: once it terminates within some fuel,
more fuel gives the same answer. -/
lemma chunkLoop_mono (tokens : List Nat) (M O : Int) :
    ∀ fuel fuel' : Nat, fuel ≤ fuel' → ∀ (start : Int) (ws : List (List Nat)),
      chunkLoop tokens M O fuel start = some ws →
      chunkLoop tokens M O fuel' start = some ws := by
  intro fuel
  induction fuel with
  | zero =>
    intro fuel' hle start ws hws
    simp [chunkLoop] at hws
  | succ fuel ih =>
    intro fuel' hle start ws hws
    obtain ⟨f', rfl⟩ : ∃ f', fuel' = f' + 1 := ⟨fuel' - 1, by omega⟩
    simp only [chunkLoop] at hws ⊢
    by_cases hs : start < (tokens.length : Int)
    · rw [if_pos hs] at hws ⊢
      cases hrec : chunkLoop tokens M O fuel (start + (M - O)) with
      | none =>
        simp only [hrec] at hws
        exact Option.noConfusion hws
      | some rest =>
        simp only [hrec] at hws
        simp only [ih f' (by omega) (start + (M - O)) rest hrec]
        exact hws
    · rw [if_neg hs] at hws ⊢
      exact hws

/-- The loop's answer does not depend on the fuel used to reach it. -/
lemma chunkLoop_unique {tokens : List Nat} {M O : Int} {fuel fuel' : Nat}
    {start : Int} {ws ws' : List (List Nat)}
    (h1 : chunkLoop tokens M O fuel start = some ws)
    (h2 : chunkLoop tokens M O fuel' start = some ws') : ws = ws' := by
  rcases Nat.le_total fuel fuel' with h | h
  · have h3 := chunkLoop_mono tokens M O fuel fuel' h start ws h1
    rw [h3] at h2
    exact Option.some_inj.mp h2
  · have h3 := chunkLoop_mono tokens M O fuel' fuel h start ws' h2
    rw [h3] at h1
    exact (Option.some_inj.mp h1).symm

/-- When the stride `max_tokens - overlap_tokens` is non-positive and the
token stream is non-empty, `start` never advances past the guard: the loop
runs out of any amount of fuel. -/
lemma chunkLoop_none_of_nonpos (tokens : List Nat) (M O : Int)
    (hMO : M - O ≤ 0) (hne : tokens ≠ []) :
    ∀ fuel : Nat, ∀ start : Int, start ≤ 0 →
      chunkLoop tokens M O fuel start = none := by
  have hlen : 0 < tokens.length := List.length_pos.mpr hne
  intro fuel
  induction fuel with
  | zero => intro start h; rfl
  | succ fuel ih =>
    intro start h
    simp only [chunkLoop]
    rw [if_pos (by omega)]
    rw [ih (start + (M - O)) (by omega)]

/-- Fuel one more than the remaining iteration count always suffices when the
stride is positive. -/
lemma chunkLoop_isSome (tokens : List Nat) (M O : Int) :
    ∀ fuel : Nat, ∀ start : Int,
      (tokens.length : Int) ≤ start + (M - O) * fuel →
      ∃ ws, chunkLoop tokens M O (fuel + 1) start = some ws := by
  intro fuel
  induction fuel with
  | zero =>
    intro start h
    have h0 : (M - O) * ((0 : Nat) : Int) = 0 := by push_cast; ring
    rw [h0] at h
    refine ⟨[], ?_⟩
    simp only [chunkLoop]
    rw [if_neg (by omega)]
  | succ fuel ih =>
    intro start h
    have hexp : (M - O) * ((fuel + 1 : Nat) : Int) = (M - O) * fuel + (M - O) := by
      push_cast
      ring
    rw [hexp] at h
    by_cases hlt : start < (tokens.length : Int)
    · obtain ⟨ws, hws⟩ := ih (start + (M - O)) (by omega)
      refine ⟨pySlice tokens start (min (start + M) (tokens.length : Int)) :: ws, ?_⟩
      simp only [chunkLoop] at hws ⊢
      rw [if_pos hlt]
      simp only [hws]
    · refine ⟨[], ?_⟩
      simp only [chunkLoop]
      rw [if_neg hlt]

/-- Each iteration consumes one unit of fuel, so a terminating run emits
fewer windows than it had fuel. -/
lemma chunkLoop_length_lt (tokens : List Nat) (M O : Int) :
    ∀ fuel : Nat, ∀ (start : Int) (ws : List (List Nat)),
      chunkLoop tokens M O fuel start = some ws → ws.length < fuel := by
  intro fuel
  induction fuel with
  | zero =>
    intro start ws h
    simp [chunkLoop] at h
  | succ fuel ih =>
    intro start ws h
    simp only [chunkLoop] at h
    by_cases hs : start < (tokens.length : Int)
    · rw [if_pos hs] at h
      cases hrec : chunkLoop tokens M O fuel (start + (M - O)) with
      | none =>
        simp only [hrec] at h
        exact Option.noConfusion h
      | some rest =>
        simp only [hrec] at h
        obtain rfl : _ :: rest = ws := Option.some_inj.mp h
        have hlen := ih (start + (M - O)) rest hrec
        simp only [List.length_cons]
        omega
    · rw [if_neg hs] at h
      obtain rfl : [] = ws := Option.some_inj.mp h
      simp

/-!
Vector Document Builder (`src/src/vectorstore/vector_doc_builder.py`).

`create_vector_documents_from_metadata` loads a SentenceTransformer, calls
`chunk_fn(raw_text)`, embeds the chunks in one batched call, and assembles
one record per `enumerate(zip(chunks, embeddings))` element.  External
collaborators are parameters of the embedding: the SentenceTransformer's
`model.encode` is `embed_fn` (its element type is abstract — the numeric
vectors are never inspected), `uuid.uuid4()` is `idGen` applied to the
per-build call counter (the loop draws one fresh id per iteration, in
order), and `datetime.now().isoformat()` is the string `now`.
-/

/-- Caller-supplied document metadata: the `metadata.get(key, default)`
lookups of the source read these four keys. -/
structure DocMetadata where
  doc_id : Option String
  title : Option String
  source : Option String
  page_num : Option Nat

/-- The `metadata` dict assembled for each chunk record. -/
structure VectorMetadata where
  doc_id : String
  title : String
  source : String
  page_num : Option Nat
  chunk_index : Nat
  token_count : Nat
  embedding_model : String
  timestamp : String
  deriving DecidableEq, Repr

/-- One output record of the builder. -/
structure VectorDoc (E : Type) where
  id : String
  text : String
  embedding : E
  metadata : VectorMetadata

/-- Python's `len(chunk.split())`: `str.split()` with no separator splits on
whitespace runs and discards empty pieces. -/
def wordCount (s : String) : Nat :=
  ((s.split Char.isWhitespace).filter (fun w => w != "")).length

/-- `create_vector_documents_from_metadata` (vector_doc_builder.py lines
40-65): chunk, embed in one batch, then map over
`enumerate(zip(chunks, embeddings))`. -/
def create_vector_documents_from_metadata {E : Type}
    (metadata : DocMetadata) (raw_text : String)
    (chunk_fn : String → List String)
    (embed_fn : List String → List E)
    (embedding_model_name : String)
    (idGen : Nat → String) (now : String) : List (VectorDoc E) :=
  let chunks := chunk_fn raw_text
  let embeddings := embed_fn chunks
  (List.zip chunks embeddings).enum.map (fun p =>
    { id := idGen p.1
      text := p.2.1
      embedding := p.2.2
      metadata :=
        { doc_id := metadata.doc_id.getD "unknown"
          title := metadata.title.getD "Untitled"
          source := metadata.source.getD "unknown"
          page_num := metadata.page_num
          chunk_index := p.1
          token_count := wordCount p.2.1
          embedding_model := embedding_model_name
          timestamp := now } })

lemma create_vector_documents_length {E : Type}
    (metadata : DocMetadata) (raw_text : String)
    (chunk_fn : String → List String) (embed_fn : List String → List E)
    (name : String) (idGen : Nat → String) (now : String) :
    (create_vector_documents_from_metadata metadata raw_text chunk_fn embed_fn
        name idGen now).length =
      min (chunk_fn raw_text).length (embed_fn (chunk_fn raw_text)).length := by
  simp [create_vector_documents_from_metadata]

lemma create_vector_documents_chunk_index {E : Type}
    (metadata : DocMetadata) (raw_text : String)
    (chunk_fn : String → List String) (embed_fn : List String → List E)
    (name : String) (idGen : Nat → String) (now : String) :
    (create_vector_documents_from_metadata metadata raw_text chunk_fn embed_fn
        name idGen now).map (fun d => d.metadata.chunk_index) =
      List.range (min (chunk_fn raw_text).length
        (embed_fn (chunk_fn raw_text)).length) := by
  simp only [create_vector_documents_from_metadata, List.map_map]
  have h : ((fun d : VectorDoc E => d.metadata.chunk_index) ∘ (fun p =>
      ({ id := idGen p.1, text := p.2.1, embedding := p.2.2,
         metadata := { doc_id := metadata.doc_id.getD "unknown",
                       title := metadata.title.getD "Untitled",
                       source := metadata.source.getD "unknown",
                       page_num := metadata.page_num,
                       chunk_index := p.1,
                       token_count := wordCount p.2.1,
                       embedding_model := name,
                       timestamp := now } } : VectorDoc E))) =
      (fun p : Nat × (String × E) => p.1) := rfl
  rw [h]
  have h2 := List.enum_map_fst (List.zip (chunk_fn raw_text)
    (embed_fn (chunk_fn raw_text)))
  simp only [List.length_zip] at h2
  exact h2

lemma create_vector_documents_texts {E : Type}
    (metadata : DocMetadata) (raw_text : String)
    (chunk_fn : String → List String) (embed_fn : List String → List E)
    (name : String) (idGen : Nat → String) (now : String)
    (h : (embed_fn (chunk_fn raw_text)).length = (chunk_fn raw_text).length) :
    (create_vector_documents_from_metadata metadata raw_text chunk_fn embed_fn
        name idGen now).map (fun d => d.text) = chunk_fn raw_text := by
  simp only [create_vector_documents_from_metadata, List.map_map]
  have h1 : ((fun d : VectorDoc E => d.text) ∘ (fun p =>
      ({ id := idGen p.1, text := p.2.1, embedding := p.2.2,
         metadata := { doc_id := metadata.doc_id.getD "unknown",
                       title := metadata.title.getD "Untitled",
                       source := metadata.source.getD "unknown",
                       page_num := metadata.page_num,
                       chunk_index := p.1,
                       token_count := wordCount p.2.1,
                       embedding_model := name,
                       timestamp := now } } : VectorDoc E))) =
      ((fun q : String × E => q.1) ∘ (fun p : Nat × (String × E) => p.2)) := rfl
  rw [h1, ← List.map_map]
  rw [List.enum_map_snd]
  exact List.map_fst_zip _ _ (by omega)

lemma create_vector_documents_ids {E : Type}
    (metadata : DocMetadata) (raw_text : String)
    (chunk_fn : String → List String) (embed_fn : List String → List E)
    (name : String) (idGen : Nat → String) (now : String) :
    (create_vector_documents_from_metadata metadata raw_text chunk_fn embed_fn
        name idGen now).map (fun d => d.id) =
      (List.range (min (chunk_fn raw_text).length
        (embed_fn (chunk_fn raw_text)).length)).map idGen := by
  simp only [create_vector_documents_from_metadata, List.map_map]
  have h1 : ((fun d : VectorDoc E => d.id) ∘ (fun p =>
      ({ id := idGen p.1, text := p.2.1, embedding := p.2.2,
         metadata := { doc_id := metadata.doc_id.getD "unknown",
                       title := metadata.title.getD "Untitled",
                       source := metadata.source.getD "unknown",
                       page_num := metadata.page_num,
                       chunk_index := p.1,
                       token_count := wordCount p.2.1,
                       embedding_model := name,
                       timestamp := now } } : VectorDoc E))) =
      (idGen ∘ (fun p : Nat × (String × E) => p.1)) := rfl
  rw [h1, ← List.map_map]
  have h2 := List.enum_map_fst (List.zip (chunk_fn raw_text)
    (embed_fn (chunk_fn raw_text)))
  simp only [List.length_zip] at h2
  rw [h2]

/-- Every window the loop emits is a contiguous `take`-of-`drop` slice of the
token stream, of width at most `M`. -/
lemma chunkFromNat_mem_shape (tokens : List Nat) (M O : Nat) :
    ∀ fuel start : Nat, ∀ w ∈ chunkFromNat tokens M O fuel start,
      ∃ i, w = (tokens.drop i).take M := by
  intro fuel
  induction fuel with
  | zero =>
    intro start w hw
    simp [chunkFromNat] at hw
  | succ fuel ih =>
    intro start w hw
    simp only [chunkFromNat] at hw
    by_cases hlt : start < tokens.length
    · rw [if_pos hlt] at hw
      rcases List.mem_cons.mp hw with h | h
      · exact ⟨start, h⟩
      · exact ih _ w h
    · rw [if_neg hlt] at hw
      simp at hw

lemma stride_fuel_cover (n M O : Nat) (hO : O < M) : n ≤ 0 + (M - O) * n := by
  have h1 : 1 * n ≤ (M - O) * n := Nat.mul_le_mul_right _ (by omega)
  omega

/-!  Claim theorems. -/

/-- C1 (counterexample): the claimed chunk-count formula fails.  For a
10-token input with `max_tokens = 5`, `overlap_tokens = 2` (a valid
configuration with `T > M`), the loop emits 4 chunks (window starts 0, 3, 6,
9), while `ceil((T - O) / (M - O)) = ceil(8 / 3) = 3`. -/
theorem C1_counterexample :
    (chunkLoop [0, 1, 2, 3, 4, 5, 6, 7, 8, 9] 5 2 11 0).map List.length = some 4 ∧
      ¬ (4 : Nat) = (10 - 2 + (5 - 2) - 1) / (5 - 2) := by
  decide

/-- C1 (amended): for every non-empty token stream of length `T` and valid
configuration `0 <= O < M`, the loop terminates and returns exactly
`ceil(T / (M - O))` chunks — the count is governed by the stride alone; the
final windows may lie entirely inside the previous window's overlap. -/
theorem C1_chunk_count (tokens : List Nat) (M O : Nat) (hO : O < M)
    (hT : 1 ≤ tokens.length) :
    ∃ ws, chunkLoop tokens (M : Int) (O : Int) (tokens.length + 1) 0 = some ws ∧
      ws.length = (tokens.length + (M - O) - 1) / (M - O) := by
  have hagree := chunkLoop_eq_chunkFromNat tokens M O hO tokens.length 0
    (stride_fuel_cover _ _ _ hO)
  refine ⟨chunkFromNat tokens M O (tokens.length + 1) 0, ?_, ?_⟩
  · rw [show ((0 : Nat) : Int) = (0 : Int) from rfl] at hagree
    exact hagree
  · rw [chunkFromNat_length tokens M O hO (tokens.length + 1) 0
      (by
        have h1 := stride_fuel_cover tokens.length M O hO
        have h2 : (M - O) * (tokens.length + 1) =
            (M - O) * tokens.length + (M - O) := by ring
        omega)]
    simp

/-- C1 witness: 3 tokens, `max_tokens = 2`, `overlap_tokens = 1`:
the loop yields `ceil(3 / 1) = 3` chunks. -/
theorem C1_chunk_count_witness :
    ∃ ws, chunkLoop [0, 1, 2] ((2 : Nat) : Int) ((1 : Nat) : Int)
        (([0, 1, 2] : List Nat).length + 1) 0 = some ws ∧
      ws.length = (([0, 1, 2] : List Nat).length + (2 - 1) - 1) / (2 - 1) :=
  C1_chunk_count [0, 1, 2] 2 1 (by decide) (by decide)

/-- C2 (code evaluated at the failing input): `chunk_text` performs no
configuration validation and the repository defines no
`InvalidChunkConfigError`; whenever `overlap_tokens >= max_tokens` and the
text is non-empty, the while loop's start never advances past the guard, so
the call loops forever instead of raising. -/
theorem C2_no_validation_diverges (tokens : List Nat) (M O : Int)
    (hMO : M ≤ O) (hne : tokens ≠ []) : chunkDiverges tokens M O := by
  intro fuel
  exact chunkLoop_none_of_nonpos tokens M O (by omega) hne fuel 0 le_rfl

/-- C2 witness: with one token and `max_tokens = overlap_tokens = 1`, no
amount of fuel makes the loop terminate. -/
theorem C2_no_validation_diverges_witness : chunkDiverges [0] 1 1 :=
  C2_no_validation_diverges [0] 1 1 (by decide) (by decide)

/-- C4 (counterexample): `T <= M` does not give exactly one chunk.  For 5
tokens with `max_tokens = 5`, `overlap_tokens = 2`, the first window already
covers the whole text but the loop advances `start` to 3 < 5 and emits a
second, redundant window. -/
theorem C4_counterexample :
    (chunkLoop [0, 1, 2, 3, 4] 5 2 6 0).map List.length = some 2 ∧
      ¬ (2 : Nat) = 1 := by
  decide

/-- C4 (amended): for `1 <= T <= M` and `0 <= O < M` the first chunk is the
decoding of the entire token sequence, but the chunk count is 1 exactly when
`T <= M - O`; when `M - O < T <= M` the loop emits further windows that lie
inside the first one. -/
theorem C4_short_input (enc : Encoding) (text : String) (M O : Nat)
    (hO : O < M) (hT1 : 1 ≤ (enc.encode text).length)
    (hTM : (enc.encode text).length ≤ M) :
    ∃ cs, chunk_text enc text (M : Int) (O : Int)
        ((enc.encode text).length + 1) = some cs ∧
      cs.head? = some (enc.decode (enc.encode text)) ∧
      (cs.length = 1 ↔ (enc.encode text).length ≤ M - O) := by
  have hagree := chunkLoop_eq_chunkFromNat (enc.encode text) M O hO
    (enc.encode text).length 0 (stride_fuel_cover _ _ _ hO)
  have hws : chunkFromNat (enc.encode text) M O ((enc.encode text).length + 1) 0 =
      enc.encode text ::
        chunkFromNat (enc.encode text) M O (enc.encode text).length (0 + (M - O)) := by
    simp only [chunkFromNat]
    rw [if_pos (by omega), List.drop_zero, List.take_of_length_le hTM]
  have hlen1 : (chunkFromNat (enc.encode text) M O
      ((enc.encode text).length + 1) 0).length =
      ((enc.encode text).length + (M - O) - 1) / (M - O) := by
    rw [chunkFromNat_length (enc.encode text) M O hO ((enc.encode text).length + 1) 0
      (by
        have h1 := stride_fuel_cover (enc.encode text).length M O hO
        have h2 : (M - O) * ((enc.encode text).length + 1) =
            (M - O) * (enc.encode text).length + (M - O) := by ring
        omega)]
    simp
  refine ⟨(chunkFromNat (enc.encode text) M O ((enc.encode text).length + 1) 0).map
    enc.decode, ?_, ?_, ?_⟩
  · unfold chunk_text
    rw [show ((0 : Nat) : Int) = (0 : Int) from rfl] at hagree
    rw [hagree]
    rfl
  · rw [hws]
    rfl
  · rw [List.length_map, hlen1]
    constructor
    · intro h1
      by_contra hgt
      push_neg at hgt
      have h2 : 2 ≤ ((enc.encode text).length + (M - O) - 1) / (M - O) :=
        (Nat.le_div_iff_mul_le (by omega)).mpr (by omega)
      omega
    · intro h1
      rw [show ((enc.encode text).length + (M - O) - 1) / (M - O) = 1 from
        Nat.div_eq_of_lt_le (by omega) (by omega)]

/-- C4 witness: a one-token text with `max_tokens = 3`,
`overlap_tokens = 1` gives exactly one chunk, the whole text. -/
theorem C4_short_input_witness :
    ∃ cs, chunk_text ⟨fun _ => [0], fun _ => "x"⟩ "hi" ((3 : Nat) : Int)
        ((1 : Nat) : Int)
        (((Encoding.mk (fun _ => [0]) (fun _ => "x")).encode "hi").length + 1) =
        some cs ∧
      cs.head? = some ((Encoding.mk (fun _ => [0]) (fun _ => "x")).decode
        ((Encoding.mk (fun _ => [0]) (fun _ => "x")).encode "hi")) ∧
      (cs.length = 1 ↔
        ((Encoding.mk (fun _ => [0]) (fun _ => "x")).encode "hi").length ≤ 3 - 1) :=
  C4_short_input ⟨fun _ => [0], fun _ => "x"⟩ "hi" 3 1 (by decide) (by decide)
    (by decide)

/-- C5: round trip.  For a valid configuration, whenever re-encoding is
faithful on the emitted windows (the spec stipulates the tokenizer is
reversible), the first chunk's re-encoded tokens followed by every further
chunk's re-encoded tokens with the leading `overlap_tokens` removed
reconstruct the original token sequence exactly. -/
theorem C5_round_trip (enc : Encoding) (text : String) (M O : Nat) (hO : O < M)
    (hrt : ∀ ts : List Nat, (∃ i, ts = ((enc.encode text).drop i).take M) →
      enc.encode (enc.decode ts) = ts) :
    ∃ cs, chunk_text enc text (M : Int) (O : Int)
        ((enc.encode text).length + 1) = some cs ∧
      overlapDropJoin O (cs.map enc.encode) = enc.encode text := by
  have hagree := chunkLoop_eq_chunkFromNat (enc.encode text) M O hO
    (enc.encode text).length 0 (stride_fuel_cover _ _ _ hO)
  refine ⟨(chunkFromNat (enc.encode text) M O ((enc.encode text).length + 1) 0).map
    enc.decode, ?_, ?_⟩
  · unfold chunk_text
    rw [show ((0 : Nat) : Int) = (0 : Int) from rfl] at hagree
    rw [hagree]
    rfl
  · rw [List.map_map]
    have hmap : (chunkFromNat (enc.encode text) M O
        ((enc.encode text).length + 1) 0).map (enc.encode ∘ enc.decode) =
        (chunkFromNat (enc.encode text) M O
          ((enc.encode text).length + 1) 0).map id := by
      apply List.map_congr_left
      intro w hw
      obtain ⟨i, hi⟩ := chunkFromNat_mem_shape (enc.encode text) M O _ 0 w hw
      exact hrt w ⟨i, hi⟩
    rw [hmap, List.map_id]
    exact chunkFromNat_overlapDropJoin (enc.encode text) M O hO
      (enc.encode text).length
      (by
        have := stride_fuel_cover (enc.encode text).length M O hO
        omega)

/-- C5 witness: degenerate faithful tokenizer on empty token output,
`max_tokens = 2`, `overlap_tokens = 1`. -/
theorem C5_round_trip_witness :
    ∃ cs, chunk_text ⟨fun _ => [], fun _ => ""⟩ "x" ((2 : Nat) : Int)
        ((1 : Nat) : Int)
        (((Encoding.mk (fun _ => []) (fun _ => "")).encode "x").length + 1) =
        some cs ∧
      overlapDropJoin 1 (cs.map (Encoding.mk (fun _ => []) (fun _ => "")).encode) =
        (Encoding.mk (fun _ => []) (fun _ => "")).encode "x" :=
  C5_round_trip ⟨fun _ => [], fun _ => ""⟩ "x" 2 1 (by decide)
    (by
      intro ts h
      obtain ⟨i, hi⟩ := h
      simp at hi
      subst hi
      rfl)

/-- C10: when the stride `max_tokens - overlap_tokens` is at least 1 the loop
terminates for every input, within `ceil(T / stride)` iterations (the fuel
argument carries one extra unit for the final guard check), and emits at most
`ceil(T / stride)` windows. -/
theorem C10_termination (tokens : List Nat) (M O : Int) (hs : 1 ≤ M - O) :
    ∃ ws, chunkLoop tokens M O
        ((tokens.length + (M - O).toNat - 1) / (M - O).toNat + 1) 0 = some ws ∧
      ws.length ≤ (tokens.length + (M - O).toNat - 1) / (M - O).toNat := by
  have hs1 : 1 ≤ (M - O).toNat := by omega
  have hq : tokens.length ≤
      (M - O).toNat * ((tokens.length + (M - O).toNat - 1) / (M - O).toNat) := by
    have hdm := Nat.div_add_mod (tokens.length + (M - O).toNat - 1) (M - O).toNat
    have hml : (tokens.length + (M - O).toNat - 1) % (M - O).toNat < (M - O).toNat :=
      Nat.mod_lt _ (by omega)
    omega
  have hcover : (tokens.length : Int) ≤ 0 + (M - O) *
      (((tokens.length + (M - O).toNat - 1) / (M - O).toNat : Nat) : Int) := by
    have hMO : M - O = (((M - O).toNat : Nat) : Int) := by omega
    rw [hMO]
    push_cast
    exact_mod_cast le_trans (by exact_mod_cast hq) (by omega)
  obtain ⟨ws, hws⟩ := chunkLoop_isSome tokens M O
    ((tokens.length + (M - O).toNat - 1) / (M - O).toNat) 0 hcover
  refine ⟨ws, hws, ?_⟩
  have hlt := chunkLoop_length_lt tokens M O _ 0 ws hws
  omega

/-- C10 witness: 10 tokens, `max_tokens = 5`, `overlap_tokens = 2`. -/
theorem C10_termination_witness :
    ∃ ws, chunkLoop [0, 1, 2, 3, 4, 5, 6, 7, 8, 9] 5 2
        ((([0, 1, 2, 3, 4, 5, 6, 7, 8, 9] : List Nat).length +
          ((5 : Int) - 2).toNat - 1) / ((5 : Int) - 2).toNat + 1) 0 = some ws ∧
      ws.length ≤ (([0, 1, 2, 3, 4, 5, 6, 7, 8, 9] : List Nat).length +
          ((5 : Int) - 2).toNat - 1) / ((5 : Int) - 2).toNat :=
  C10_termination [0, 1, 2, 3, 4, 5, 6, 7, 8, 9] 5 2 (by decide)

/-- C3 (counterexample): the builder performs no embedding-count check and the
repository defines no `EmbeddingCountMismatchError`.  With 2 chunks and 1
embedding vector, `zip` silently truncates: one vector document is returned
(neither an error nor an empty result). -/
theorem C3_counterexample :
    (create_vector_documents_from_metadata ⟨none, none, none, none⟩ "t"
        (fun _ => ["a", "b"]) (fun _ => [(0 : Nat)]) "m"
        (fun _ => "id") "now").length = 1 ∧
      ((fun _ : String => ["a", "b"]) "t").length = 2 ∧
      ((fun _ : List String => [(0 : Nat)]) ["a", "b"]).length = 1 ∧
      ¬ (1 : Nat) = 0 := by
  refine ⟨?_, rfl, rfl, by decide⟩
  rfl

/-- C3 (amended): the builder zips chunks with embeddings, so the output
length is `min(len(chunks), len(embeddings))` — a mismatched embedder is
silently truncated, not rejected; when the embedder honours its contract and
returns one vector per chunk, `len(vector_documents) = len(chunks) =
len(embeddings)` holds. -/
theorem C3_zip_truncation {E : Type}
    (metadata : DocMetadata) (raw_text : String)
    (chunk_fn : String → List String) (embed_fn : List String → List E)
    (name : String) (idGen : Nat → String) (now : String) :
    (create_vector_documents_from_metadata metadata raw_text chunk_fn embed_fn
        name idGen now).length =
      min (chunk_fn raw_text).length (embed_fn (chunk_fn raw_text)).length ∧
    ((embed_fn (chunk_fn raw_text)).length = (chunk_fn raw_text).length →
      (create_vector_documents_from_metadata metadata raw_text chunk_fn embed_fn
          name idGen now).length = (chunk_fn raw_text).length ∧
      (create_vector_documents_from_metadata metadata raw_text chunk_fn embed_fn
          name idGen now).length = (embed_fn (chunk_fn raw_text)).length) := by
  refine ⟨create_vector_documents_length _ _ _ _ _ _ _, fun h => ?_⟩
  have h1 := create_vector_documents_length metadata raw_text chunk_fn embed_fn
    name idGen now
  constructor
  · rw [h1]
    omega
  · rw [h1]
    omega

/-- C3 witness: an embedder returning one vector per chunk satisfies the
length invariant. -/
theorem C3_zip_truncation_witness :
    (create_vector_documents_from_metadata ⟨none, none, none, none⟩ "t"
        (fun _ => ["a", "b"]) (fun cs => cs.map (fun _ => (0 : Nat))) "m"
        (fun _ => "id") "now").length =
      min ((fun _ : String => ["a", "b"]) "t").length
        ((fun cs : List String => cs.map (fun _ => (0 : Nat))) ["a", "b"]).length ∧
    (((fun cs : List String => cs.map (fun _ => (0 : Nat))) ["a", "b"]).length =
        ((fun _ : String => ["a", "b"]) "t").length →
      (create_vector_documents_from_metadata ⟨none, none, none, none⟩ "t"
          (fun _ => ["a", "b"]) (fun cs => cs.map (fun _ => (0 : Nat))) "m"
          (fun _ => "id") "now").length = ((fun _ : String => ["a", "b"]) "t").length ∧
      (create_vector_documents_from_metadata ⟨none, none, none, none⟩ "t"
          (fun _ => ["a", "b"]) (fun cs => cs.map (fun _ => (0 : Nat))) "m"
          (fun _ => "id") "now").length =
        ((fun cs : List String => cs.map (fun _ => (0 : Nat))) ["a", "b"]).length) :=
  C3_zip_truncation ⟨none, none, none, none⟩ "t" (fun _ => ["a", "b"])
    (fun cs => cs.map (fun _ => (0 : Nat))) "m" (fun _ => "id") "now"

/-- C6: empty text encodes to zero tokens, so the chunking loop body never
runs and `chunk_text` returns the empty list without error (for any
configuration); a chunk function returning zero chunks makes the builder
return zero vector documents without error. -/
theorem C6_empty_input {E : Type} (enc : Encoding) (henc : enc.encode "" = [])
    (M O : Int) (fuel : Nat)
    (metadata : DocMetadata) (raw_text : String)
    (chunk_fn : String → List String) (hchunk : chunk_fn raw_text = [])
    (embed_fn : List String → List E) (name : String)
    (idGen : Nat → String) (now : String) :
    chunk_text enc "" M O (fuel + 1) = some [] ∧
      create_vector_documents_from_metadata metadata raw_text chunk_fn embed_fn
        name idGen now = [] := by
  constructor
  · unfold chunk_text
    rw [henc]
    simp only [chunkLoop]
    rw [if_neg (by simp)]
    rfl
  · unfold create_vector_documents_from_metadata
    rw [hchunk]
    simp

/-- C6 witness: a tokenizer sending everything to zero tokens and a chunk
function returning no chunks. -/
theorem C6_empty_input_witness :
    chunk_text ⟨fun _ => [], fun _ => ""⟩ "" 512 100 (0 + 1) = some [] ∧
      create_vector_documents_from_metadata ⟨none, none, none, none⟩ "doc"
        (fun _ => []) (fun cs => cs.map (fun _ => (0 : Nat))) "all-MiniLM-L6-v2"
        (fun _ => "id") "now" = [] :=
  C6_empty_input ⟨fun _ => [], fun _ => ""⟩ rfl 512 100 0
    ⟨none, none, none, none⟩ "doc" (fun _ => []) rfl
    (fun cs => cs.map (fun _ => (0 : Nat))) "all-MiniLM-L6-v2" (fun _ => "id") "now"

/-- C7: on a successful build (the embedder returns one vector per chunk) the
records appear in chunk order — the list of `chunk_index` values is exactly
`0..n-1` with no gaps or repeats, and record `i` carries the text of chunk
`i`. -/
theorem C7_order_and_indices {E : Type}
    (metadata : DocMetadata) (raw_text : String)
    (chunk_fn : String → List String) (embed_fn : List String → List E)
    (name : String) (idGen : Nat → String) (now : String)
    (h : (embed_fn (chunk_fn raw_text)).length = (chunk_fn raw_text).length) :
    (create_vector_documents_from_metadata metadata raw_text chunk_fn embed_fn
        name idGen now).map (fun d => d.metadata.chunk_index) =
      List.range (chunk_fn raw_text).length ∧
    (create_vector_documents_from_metadata metadata raw_text chunk_fn embed_fn
        name idGen now).map (fun d => d.text) = chunk_fn raw_text := by
  constructor
  · rw [create_vector_documents_chunk_index]
    congr 1
    omega
  · exact create_vector_documents_texts _ _ _ _ _ _ _ h

/-- C7 witness: two chunks, an embedder returning one vector per chunk. -/
theorem C7_order_and_indices_witness :
    (create_vector_documents_from_metadata ⟨none, none, none, none⟩ "t"
        (fun _ => ["a", "b"]) (fun cs => cs.map (fun _ => (0 : Nat))) "m"
        (fun _ => "id") "now").map (fun d => d.metadata.chunk_index) =
      List.range ((fun _ : String => ["a", "b"]) "t").length ∧
    (create_vector_documents_from_metadata ⟨none, none, none, none⟩ "t"
        (fun _ => ["a", "b"]) (fun cs => cs.map (fun _ => (0 : Nat))) "m"
        (fun _ => "id") "now").map (fun d => d.text) =
      (fun _ : String => ["a", "b"]) "t" :=
  C7_order_and_indices ⟨none, none, none, none⟩ "t" (fun _ => ["a", "b"])
    (fun cs => cs.map (fun _ => (0 : Nat))) "m" (fun _ => "id") "now" rfl

/-- C8: a model name with no tokenization profile in the registry makes
`chunk_text` fail with the unsupported-model error before the text is
encoded; the error is returned to the caller as is (no retry path exists). -/
theorem C8_unsupported_model (registry : List (String × Encoding))
    (text model_name : String) (M O : Int) (fuel : Nat)
    (h : registry.find? (fun p => p.1 == model_name) = none) :
    chunk_text_full registry text model_name M O fuel =
      Except.error (ChunkError.unsupportedModel model_name) := by
  unfold chunk_text_full encoding_for_model
  rw [h]

/-- C8 witness: the empty registry knows no model. -/
theorem C8_unsupported_model_witness :
    chunk_text_full ([] : List (String × Encoding)) "some text" "not-a-model"
      512 100 7 = Except.error (ChunkError.unsupportedModel "not-a-model") :=
  C8_unsupported_model [] "some text" "not-a-model" 512 100 7 rfl

/-- C9: within one build call the minted ids are the successive draws of the
id generator, one per chunk in order; when the generator never repeats (the
collision-resistance contract of `uuid.uuid4`), the id fields of the output
records are pairwise distinct. -/
theorem C9_unique_ids {E : Type}
    (metadata : DocMetadata) (raw_text : String)
    (chunk_fn : String → List String) (embed_fn : List String → List E)
    (name : String) (idGen : Nat → String)
    (hinj : Function.Injective idGen) (now : String) :
    ((create_vector_documents_from_metadata metadata raw_text chunk_fn embed_fn
        name idGen now).map (fun d => d.id)).Nodup := by
  rw [create_vector_documents_ids]
  exact (List.nodup_range _).map hinj

/-- C9 witness: an injective generator (unary strings) on a two-chunk
build. -/
theorem C9_unique_ids_witness :
    ((create_vector_documents_from_metadata ⟨none, none, none, none⟩ "t"
        (fun _ => ["a", "b"]) (fun cs => cs.map (fun _ => (0 : Nat))) "m"
        (fun i => String.mk (List.replicate i 'u')) "now").map
      (fun d => d.id)).Nodup :=
  C9_unique_ids ⟨none, none, none, none⟩ "t" (fun _ => ["a", "b"])
    (fun cs => cs.map (fun _ => (0 : Nat))) "m"
    (fun i => String.mk (List.replicate i 'u'))
    (by
      intro a b hab
      have h2 := congrArg (fun s => s.data.length) hab
      simpa using h2)
    "now"

end LabPipeline
